import Mathlib

/-!
Shallow embedding of the debounce/throttle engine of use-debounce-pro
(source files: the core utils module defining createDebouncer and its
inner closures, its types module, and src/index.ts).

Times are modelled as Int (JS millisecond timestamps).  The single
outstanding setTimeout is modelled by the field timer : Option Int
holding the absolute instant at which the armed callback is due:
a setTimeout performed at instant t with delay d is recorded as
some (t + d).  clearTimeout / an expired timer is none.

Each state-mutating operation returns, besides the new state, the list
of invocations of the underlying function it performed (instant and
argument), so that theorems can speak about how often and with which
arguments the wrapped function was called.
-/

namespace UseDebounce

/-- Mirrors the DebouncerMode union type ("debounce" | "throttle"). -/
inductive DebouncerMode : Type
  | debounce
  | throttle
deriving Repr, DecidableEq

/-- Mirrors the DebouncerOptions interface: wait is required, the rest
optional (none = the field was not supplied). -/
structure DebouncerOptions : Type where
  wait : Int
  mode : Option DebouncerMode := none
  leading : Option Bool := none
  trailing : Option Bool := none
  maxWait : Option Int := none
deriving Repr, DecidableEq

/-- The configuration captured by createDebouncer's destructuring
`const { wait, leading = false, trailing = true, maxWait } = options`.
The mode field is read by nothing in the engine and is dropped here. -/
structure Config : Type where
  wait : Int
  leading : Bool
  trailing : Bool
  maxWait : Option Int
deriving Repr, DecidableEq

/-- The defaulting performed by createDebouncer's destructuring. -/
def mkConfig (o : DebouncerOptions) : Config :=
  { wait := o.wait
    leading := o.leading.getD false
    trailing := o.trailing.getD true
    maxWait := o.maxWait }

/-- Mirrors the DebouncerState record.  timer is the armed timeout's
absolute due instant (timeoutId in the source), lastArgs the pending
argument tuple, result the last return value (none = undefined). -/
structure DState (α β : Type) : Type where
  timer : Option Int
  lastCallTime : Int
  lastInvokeTime : Int
  lastArgs : Option α
  result : Option β
deriving Repr, DecidableEq

/-- The at-rest state built inside createDebouncer. -/
def initialState {α β : Type} : DState α β :=
  { timer := none, lastCallTime := 0, lastInvokeTime := 0
    lastArgs := none, result := none }

/-- The error type named by the specification's ConfigurationError
taxonomy entry. -/
inductive ConfigurationError : Type
  | negativeWait
  | maxWaitLessThanWait
deriving Repr, DecidableEq

/-- Mirrors createDebouncer's construction step: it destructures the
options and builds the at-rest state.  The source body contains no
validation and no throw statement; the Except return type records the
(absent) construction-time error path, so it is always Except.ok. -/
def createDebouncer (α β : Type) (o : DebouncerOptions) :
    Except ConfigurationError (Config × DState α β) :=
  Except.ok (mkConfig o, initialState)

/-- Mirrors normalizeOptions: a bare number becomes { wait := n }. -/
def normalizeOptions (o : Sum Int DebouncerOptions) : DebouncerOptions :=
  match o with
  | Sum.inl n => { wait := n }
  | Sum.inr opts => opts

variable {α β : Type}

/-- Mirrors shouldInvoke(time): first-call sentinel, quiet window,
then the maxWait ceiling. -/
def shouldInvoke (cfg : Config) (s : DState α β) (time : Int) : Bool :=
  let timeSinceLastCall := time - s.lastCallTime
  let timeSinceLastInvoke := time - s.lastInvokeTime
  if s.lastCallTime = 0 then true
  else if cfg.wait ≤ timeSinceLastCall then true
  else
    match cfg.maxWait with
    | some mw => mw ≤ timeSinceLastInvoke
    | none => false

/-- Mirrors invokeFunc(time): set lastInvokeTime, call fn with the
stored args, store the result.  The source reads state.lastArgs with a
non-null assertion; every call site guards it, so the none branch is
unreachable there and modelled as a no-invocation no-op. -/
def invokeFunc (f : α → β) (time : Int) (s : DState α β) :
    DState α β × List (Int × α) :=
  match s.lastArgs with
  | some args =>
      ({ s with lastInvokeTime := time, result := some (f args) },
       [(time, args)])
  | none => (s, [])

/-- Result record for the operations that return a value to the caller:
new state, invocations performed, and the returned value
(none = undefined). -/
structure DebRet (α β : Type) : Type where
  st : DState α β
  invs : List (Int × α)
  ret : Option β
deriving Repr, DecidableEq

/-- Mirrors leadingEdge(time): reset lastInvokeTime, arm the trailing
timer for wait, invoke immediately only when leading is set. -/
def leadingEdge (cfg : Config) (f : α → β) (time : Int) (s : DState α β) :
    DebRet α β :=
  let s1 : DState α β :=
    { s with lastInvokeTime := time, timer := some (time + cfg.wait) }
  if cfg.leading then
    let p := invokeFunc f time s1
    { st := p.1, invs := p.2, ret := p.1.result }
  else
    { st := s1, invs := [], ret := s1.result }

/-- Mirrors trailingEdge(time): disarm the timer; invoke when trailing
is enabled and args are pending, else clear lastArgs. -/
def trailingEdge (cfg : Config) (f : α → β) (time : Int) (s : DState α β) :
    DebRet α β :=
  let s1 : DState α β := { s with timer := none }
  match cfg.trailing, s1.lastArgs with
  | true, some _ =>
      let p := invokeFunc f time s1
      { st := p.1, invs := p.2, ret := p.1.result }
  | _, _ =>
      { st := { s1 with lastArgs := none }, invs := [], ret := s1.result }

/-- Mirrors remainingWait(time): re-arm the timer for
min(wait - timeSinceLastCall, maxWait - timeSinceLastInvoke), the
second component being Infinity (absent) without maxWait. -/
def remainingWait (cfg : Config) (time : Int) (s : DState α β) :
    DState α β :=
  let timeSinceLastCall := time - s.lastCallTime
  let timeSinceLastInvoke := time - s.lastInvokeTime
  let timeWaiting := cfg.wait - timeSinceLastCall
  let nextWait :=
    match cfg.maxWait with
    | some mw => min timeWaiting (mw - timeSinceLastInvoke)
    | none => timeWaiting
  { s with timer := some (time + nextWait) }

/-- Mirrors timerExpired, with the Date.now() reading passed in as
time: run the trailing edge when due, otherwise re-arm. -/
def timerExpired (cfg : Config) (f : α → β) (time : Int) (s : DState α β) :
    DState α β × List (Int × α) :=
  if shouldInvoke cfg s time then
    let r := trailingEdge cfg f time s
    (r.st, r.invs)
  else
    (remainingWait cfg time s, [])

/-- Mirrors cancel(): disarm the timer and reset lastCallTime,
lastInvokeTime and lastArgs to their at-rest values. -/
def cancel (s : DState α β) : DState α β :=
  { s with timer := none, lastCallTime := 0, lastInvokeTime := 0
           lastArgs := none }

/-- Mirrors flush(): return the stored result when idle; otherwise
cancel, then invoke if args are still pending.  (cancel has just set
lastArgs to none, so the invoke branch is the source's dead branch;
it is kept here exactly as written.) -/
def flush (f : α → β) (time : Int) (s : DState α β) : DebRet α β :=
  match s.timer with
  | none => { st := s, invs := [], ret := s.result }
  | some _ =>
      let s1 := cancel s
      match s1.lastArgs with
      | some _ =>
          let p := invokeFunc f time s1
          { st := p.1, invs := p.2, ret := p.1.result }
      | none => { st := s1, invs := [], ret := s1.result }

/-- Mirrors isPending(). -/
def isPending (s : DState α β) : Bool :=
  s.timer.isSome

/-- Mirrors the main debounced(...args) function, with the Date.now()
reading passed in as time. -/
def debounced (cfg : Config) (f : α → β) (time : Int) (args : α)
    (s : DState α β) : DebRet α β :=
  let isInvoking := shouldInvoke cfg s time
  let s1 : DState α β := { s with lastArgs := some args, lastCallTime := time }
  if isInvoking then
    if s1.timer = none then
      leadingEdge cfg f time s1
    else
      match cfg.maxWait with
      | some _ =>
          let s2 : DState α β := { s1 with timer := some (time + cfg.wait) }
          let p := invokeFunc f time s2
          { st := p.1, invs := p.2, ret := p.1.result }
      | none =>
          { st := s1, invs := [], ret := s1.result }
  else
    if s1.timer = none then
      { st := { s1 with timer := some (time + cfg.wait) }, invs := [],
        ret := s1.result }
    else
      { st := s1, invs := [], ret := s1.result }

/-! ### Event-loop simulator

The operations above are per-event; the timed claims quantify over
whole runs.  The simulator plays a list of calls (instant, argument)
in order against the engine, firing the armed timeout whenever its due
instant lies strictly before the next call (a call and a timeout due
at the same instant are processed call first), and finally drains the
timeout until the engine is idle.  Fire loops are fuel-bounded; every
theorem below supplies fuel shown sufficient for its run. -/

/-- Fire the armed timeout while it is due strictly before the bound. -/
def fireDue (cfg : Config) (f : α → β) : Nat → Int → DState α β →
    DState α β × List (Int × α)
  | 0, _, s => (s, [])
  | n + 1, bound, s =>
      match s.timer with
      | some t =>
          if t < bound then
            let p := timerExpired cfg f t s
            let q := fireDue cfg f n bound p.1
            (q.1, p.2 ++ q.2)
          else (s, [])
      | none => (s, [])

/-- Play the calls in order, firing due timeouts before each call. -/
def runCalls (cfg : Config) (f : α → β) :
    List (Int × α) → DState α β → DState α β × List (Int × α)
  | [], s => (s, [])
  | (t, a) :: rest, s =>
      let p := fireDue cfg f 2 t s
      let r := debounced cfg f t a p.1
      let q := runCalls cfg f rest r.st
      (q.1, p.2 ++ r.invs ++ q.2)

/-- After the last call, keep firing the timeout at its due instant
until the engine is idle (fuel-bounded). -/
def drain (cfg : Config) (f : α → β) : Nat → DState α β →
    DState α β × List (Int × α)
  | 0, s => (s, [])
  | n + 1, s =>
      match s.timer with
      | none => (s, [])
      | some t =>
          let p := timerExpired cfg f t s
          let q := drain cfg f n p.1
          (q.1, p.2 ++ q.2)

/-- Full run: all calls from the at-rest state, then drain. -/
def simulate (cfg : Config) (f : α → β) (calls : List (Int × α)) :
    DState α β × List (Int × α) :=
  let p := runCalls cfg f calls initialState
  let q := drain cfg f (calls.length + 2) p.1
  (q.1, p.2 ++ q.2)

/-- Engine operations for mixed-operation runs. -/
inductive DebOp (α : Type) : Type
  | schedule (args : α)
  | timerFire
  | cancel
  | flush
deriving Repr, DecidableEq

/-- Apply one operation at the given instant.  timerFire models the
runtime invoking the armed setTimeout callback; with no armed timer
there is no callback, so it is a no-op. -/
def applyOp (cfg : Config) (f : α → β) (time : Int) (op : DebOp α)
    (s : DState α β) : DState α β × List (Int × α) :=
  match op with
  | DebOp.schedule args =>
      let r := debounced cfg f time args s
      (r.st, r.invs)
  | DebOp.timerFire =>
      match s.timer with
      | some _ => timerExpired cfg f time s
      | none => (s, [])
  | DebOp.cancel => (cancel s, [])
  | DebOp.flush =>
      let r := flush f time s
      (r.st, r.invs)

/-- True for the operations that never reset timestamps: schedule and
timer fire (cancel and flush are the resetting ones). -/
def isSchedOrFire : DebOp α → Bool
  | DebOp.schedule _ => true
  | DebOp.timerFire => true
  | DebOp.cancel => false
  | DebOp.flush => false

/-- Run a list of timestamped operations. -/
def runOps (cfg : Config) (f : α → β) :
    List (Int × DebOp α) → DState α β → DState α β × List (Int × α)
  | [], s => (s, [])
  | (t, op) :: rest, s =>
      let p := applyOp cfg f t op s
      let q := runOps cfg f rest p.1
      (q.1, p.2 ++ q.2)

/-! ### Throwing underlying functions

The source wraps no call in try/catch, so a throw from fn propagates out
of invokeFunc.  invokeFunc assigns state.lastInvokeTime before calling
fn and assigns state.result from the completed call, so a throw leaves
result at its previous value while lastInvokeTime is already updated.
These variants model fn as Except-valued. -/

/-- invokeFunc for a throwing underlying function, at a call site where
state.lastArgs = some args (every call site guards this).  A throw
(Except.error) leaves result unchanged and propagates. -/
def invokeFuncE {ε : Type} (f : α → Except ε β) (time : Int) (args : α)
    (s : DState α β) : DState α β × Except ε β :=
  let s1 : DState α β := { s with lastInvokeTime := time }
  match f args with
  | Except.ok b => ({ s1 with result := some b }, Except.ok b)
  | Except.error e => (s1, Except.error e)

/-- trailingEdge for a throwing underlying function: the timer is
disarmed before fn is called. -/
def trailingEdgeE {ε : Type} (cfg : Config) (f : α → Except ε β)
    (time : Int) (s : DState α β) : DState α β × Except ε (Option β) :=
  let s1 : DState α β := { s with timer := none }
  match cfg.trailing, s1.lastArgs with
  | true, some args =>
      let p := invokeFuncE f time args s1
      (p.1, p.2.map some)
  | _, _ => ({ s1 with lastArgs := none }, Except.ok s1.result)

/-! ### Named configurations and run helpers used by the claims -/

/-- Configuration { wait: 300 } with all defaults. -/
def cfg300 : Config :=
  { wait := 300, leading := false, trailing := true, maxWait := none }

/-- Configuration { wait: 100, maxWait: 200 } with default edges. -/
def cfg7 : Config :=
  { wait := 100, leading := false, trailing := true, maxWait := some 200 }

/-- Last element of a nonempty list given as head and tail. -/
def lastCall (p : Int × α) : List (Int × α) → Int × α
  | [] => p
  | q :: rest => lastCall q rest

/-- Invariant holding after each processed call of a burst against
cfg300, the burst having started at a non-negative instant: the newest
call (instant t, argument a) is recorded as pending, and the armed
timeout is due no earlier than t, no later than t + 300, and never
before instant 300 (so a lastCallTime that happens to equal the 0
sentinel can never be observed by a firing timer). -/
def Inv300 (t : Int) (a : α) (s : DState α β) : Prop :=
  s.lastArgs = some a ∧ s.lastCallTime = t ∧ 0 ≤ t ∧
    ∃ τ, s.timer = some τ ∧ t ≤ τ ∧ τ ≤ t + 300 ∧ 300 ≤ τ

/-! ## Theorems -/

/-- A timer due at lastCallTime + wait always finds shouldInvoke true:
either lastCallTime is the 0 sentinel (first branch) or the full quiet
window has elapsed (second branch). -/
lemma shouldInvoke_at_due (cfg : Config) (s : DState α β) (t : Int)
    (hc : s.lastCallTime = t) : shouldInvoke cfg s (t + cfg.wait) = true := by
  unfold shouldInvoke
  by_cases h1 : s.lastCallTime = 0
  · simp [h1]
  · have h2 : cfg.wait ≤ t + cfg.wait - s.lastCallTime := by omega
    simp [h1, h2]

/-- C5: shouldInvoke(now) is true exactly when this is the first call
ever (lastCallTime at the 0 sentinel), or the quiet window has elapsed
(now - lastCallTime >= wait), or maxWait is configured and
now - lastInvokeTime >= maxWait. -/
theorem C5_shouldInvoke_iff (cfg : Config) (s : DState α β) (now : Int) :
    shouldInvoke cfg s now = true ↔
      s.lastCallTime = 0 ∨ cfg.wait ≤ now - s.lastCallTime ∨
        ∃ mw, cfg.maxWait = some mw ∧ mw ≤ now - s.lastInvokeTime := by
  unfold shouldInvoke
  by_cases h1 : s.lastCallTime = 0
  · simp [h1]
  · by_cases h2 : cfg.wait ≤ now - s.lastCallTime
    · simp [h1, h2]
    · cases hmw : cfg.maxWait with
      | none => simp [h1, h2, hmw]
      | some mw => simp [h1, h2, hmw]

/-- C8: a timer fire at an instant where shouldInvoke is false re-arms
the timer to come due after exactly
min(wait - (now - lastCallTime), maxWait - (now - lastInvokeTime)),
the second bound being absent (unbounded) when maxWait is not
configured. -/
theorem C8_rearm_delay (cfg : Config) (f : α → β) (s : DState α β)
    (now : Int) (h : shouldInvoke cfg s now = false) :
    (timerExpired cfg f now s).1.timer =
      some (now +
        match cfg.maxWait with
        | none => cfg.wait - (now - s.lastCallTime)
        | some mw =>
            min (cfg.wait - (now - s.lastCallTime))
              (mw - (now - s.lastInvokeTime))) := by
  unfold timerExpired remainingWait
  rw [if_neg (by simp [h])]
  cases hmw : cfg.maxWait <;> simp [hmw]

/-- Witness for C8 at a concrete non-due state. -/
theorem C8_rearm_delay_witness :
    shouldInvoke cfg7 (⟨some 190, 90, 90, some 1, none⟩ : DState ℕ ℕ) 100
        = false
    ∧ (timerExpired cfg7 (fun n : ℕ => n + 1) 100
          (⟨some 190, 90, 90, some 1, none⟩ : DState ℕ ℕ)).1.timer =
        some (100 + min (100 - (100 - 90)) (200 - (100 - 90))) :=
  ⟨by decide,
   C8_rearm_delay cfg7 (fun n : ℕ => n + 1) ⟨some 190, 90, 90, some 1, none⟩
     100 (by decide)⟩

/-- C2 counterexample: constructing with wait = -5 (negative) and
maxWait = -10 < wait succeeds and produces the instance; no
ConfigurationError is raised anywhere in the source. -/
theorem C2_counterexample :
    createDebouncer ℕ ℕ { wait := -5, maxWait := some (-10) } =
      Except.ok
        ({ wait := -5, leading := false, trailing := true,
           maxWait := some (-10) }, initialState) := rfl

/-- C2 amended: construction performs no validation at all; it succeeds
for every configuration (negative wait and maxWait < wait included),
yielding the destructured configuration and the at-rest state. -/
theorem C2_construction_never_fails (α β : Type) (o : DebouncerOptions) :
    (createDebouncer α β o).isOk = true ∧
      createDebouncer α β o = Except.ok (mkConfig o, initialState) :=
  ⟨rfl, rfl⟩

/-- C1: flush never invokes the underlying function.  In the source,
flush calls cancel() - which nulls state.lastArgs - before testing
state.lastArgs, so its invoke branch is dead: for every state, flush
performs no invocation and leaves isPending false; flushing the pending
state reached by a schedule at t = 10 (args 5) returns the stale
undefined result instead of invoking with 5. -/
theorem C1_flush_never_invokes (α β : Type) :
    (∀ (f : α → β) (time : Int) (s : DState α β),
        (flush f time s).invs = [] ∧ isPending (flush f time s).st = false)
    ∧ (flush (fun n : ℕ => n + 1) 20
          (debounced cfg300 (fun n : ℕ => n + 1) 10 5 initialState).st).ret
        = none
    ∧ (flush (fun n : ℕ => n + 1) 20
          (debounced cfg300 (fun n : ℕ => n + 1) 10 5 initialState).st).invs
        = [] := by
  refine ⟨fun f time s => ?_, by decide, by decide⟩
  cases h : s.timer <;> simp [flush, cancel, isPending, h]

/-- C3 counterexample: one call at t = 0 against cfg300; the trailing
timer fires at t = 300 and invokes with argument 7, yet immediately
after that invocation (the run's final event) pendingArgs still holds
the consumed tuple instead of having been cleared. -/
theorem C3_counterexample :
    (simulate cfg300 (fun n : ℕ => n + 1) [(0, 7)]).2 = [(300, 7)] ∧
      (simulate cfg300 (fun n : ℕ => n + 1) [(0, 7)]).1.lastArgs = some 7 := by
  decide

/-- C3 amended: invocations never clear pendingArgs - invokeFunc leaves
lastArgs untouched; lastArgs is cleared by cancel, and by a trailing
edge exactly when it does not invoke (trailing disabled or no pending
args). -/
theorem C3_pendingArgs_clearing (cfg : Config) (f : α → β) (time : Int)
    (s : DState α β) :
    (invokeFunc f time s).1.lastArgs = s.lastArgs
    ∧ (cancel s).lastArgs = none
    ∧ (trailingEdge cfg f time s).st.lastArgs =
        (if cfg.trailing = true ∧ s.lastArgs.isSome = true
         then s.lastArgs else none) := by
  refine ⟨?_, rfl, ?_⟩
  · cases h : s.lastArgs <;> simp [invokeFunc, h]
  · cases htr : cfg.trailing <;> cases h : s.lastArgs <;>
      simp [trailingEdge, invokeFunc, htr, h]

/-- C7 counterexample: with {wait: 100, maxWait: 200} and calls at
t = 0, 90, 180, the only invocation fired by t = 210 is the forced one
at t = 90 carrying the t = 90 argument (lastCallTime still held the 0
sentinel when the t = 90 call arrived, so it was treated as a first
call); the t = 180 argument is invoked only at t = 280. -/
theorem C7_counterexample :
    (simulate cfg7 (fun n : ℕ => n + 1) [(0, 1), (90, 2), (180, 3)]).2 =
        [(90, 2), (280, 3)]
    ∧ ((simulate cfg7 (fun n : ℕ => n + 1)
          [(0, 1), (90, 2), (180, 3)]).2.filter
            (fun p => decide (p.1 ≤ 210))) = [(90, 2)] := by
  decide

/-- C7 amended: shifting the same scenario off the 0 sentinel (calls at
t = 1, 91, 181), exactly one invocation fires by t = 211: at t = 201 =
first call + maxWait, with the t = 181 call's argument, even though the
debounce target t = 281 has not been reached. -/
theorem C7_maxWait_forcing :
    (simulate cfg7 (fun n : ℕ => n + 1) [(1, 1), (91, 2), (181, 3)]).2 =
      [(201, 3)] := by
  decide

/-- C9 counterexample: a trailing-edge invocation whose underlying
function throws leaves pendingArgs still present (the engine never
clears it before - or after - the call), contradicting the claim that
pendingArgs is cleared before the underlying function is called. -/
theorem C9_counterexample :
    (trailingEdgeE cfg300 (fun _ : ℕ => (Except.error () : Except Unit ℕ))
        400 ⟨some 400, 100, 0, some 7, none⟩).2 = Except.error ()
    ∧ (trailingEdgeE cfg300 (fun _ : ℕ => (Except.error () : Except Unit ℕ))
        400 ⟨some 400, 100, 0, some 7, none⟩).1.lastArgs = some 7 :=
  ⟨rfl, rfl⟩

/-- C9 amended: on the trailing-edge path a throw propagates to the
caller, and the engine state it leaves equals the state a successful
invocation would have left except for lastResult, which keeps its
previous value: the timer was disarmed and lastInvokeTime assigned
before the call, and pendingArgs is untouched by invocation in both
cases. -/
theorem C9_throw_state_consistency {ε : Type} (cfg : Config)
    (f : α → Except ε β) (g : α → β) (time : Int) (s : DState α β)
    (args : α) (e : ε) (htr : cfg.trailing = true)
    (ha : s.lastArgs = some args) (hf : f args = Except.error e) :
    (trailingEdgeE cfg f time s).2 = Except.error e
    ∧ (trailingEdgeE cfg f time s).1 =
        { (trailingEdgeE cfg (fun x => (Except.ok (g x) : Except ε β))
            time s).1 with result := s.result }
    ∧ (trailingEdgeE cfg f time s).1.timer = none
    ∧ (trailingEdgeE cfg f time s).1.lastArgs = s.lastArgs := by
  simp [trailingEdgeE, htr, ha, invokeFuncE, hf, Except.map]

/-- Witness for C9 at a concrete throwing call. -/
theorem C9_throw_state_consistency_witness :
    cfg300.trailing = true
    ∧ (⟨some 400, 100, 0, some 7, none⟩ : DState ℕ ℕ).lastArgs = some 7
    ∧ ((fun _ : ℕ => (Except.error () : Except Unit ℕ)) 7 = Except.error ())
    ∧ (trailingEdgeE cfg300 (fun _ : ℕ => (Except.error () : Except Unit ℕ))
          400 ⟨some 400, 100, 0, some 7, none⟩).1 =
        { (trailingEdgeE cfg300
            (fun x : ℕ => (Except.ok (x + 1) : Except Unit ℕ)) 400
            ⟨some 400, 100, 0, some 7, none⟩).1 with
          result := (⟨some 400, 100, 0, some 7, none⟩ : DState ℕ ℕ).result } :=
  ⟨rfl, rfl, rfl,
   (C9_throw_state_consistency cfg300
      (fun _ : ℕ => (Except.error () : Except Unit ℕ)) (fun x => x + 1)
      400 ⟨some 400, 100, 0, some 7, none⟩ 7 () rfl rfl rfl).2.1⟩

/-- lastInvokeTime after a call event: assigned the call instant or
left unchanged. -/
lemma debounced_lastInvokeTime (cfg : Config) (f : α → β) (time : Int)
    (args : α) (s : DState α β) :
    (debounced cfg f time args s).st.lastInvokeTime = time ∨
      (debounced cfg f time args s).st.lastInvokeTime = s.lastInvokeTime := by
  unfold debounced
  by_cases hsi : shouldInvoke cfg s time
  · by_cases htm : s.timer = none
    · cases hl : cfg.leading <;>
        simp [hsi, htm, hl, leadingEdge, invokeFunc]
    · cases hmw : cfg.maxWait with
      | none => right; simp [hsi, htm, hmw]
      | some mw => left; simp [hsi, htm, hmw, invokeFunc]
  · right; by_cases htm : s.timer = none <;> simp [hsi, htm]

/-- lastInvokeTime after a timer fire: assigned the fire instant or
left unchanged. -/
lemma timerExpired_lastInvokeTime (cfg : Config) (f : α → β) (time : Int)
    (s : DState α β) :
    (timerExpired cfg f time s).1.lastInvokeTime = time ∨
      (timerExpired cfg f time s).1.lastInvokeTime = s.lastInvokeTime := by
  unfold timerExpired trailingEdge
  by_cases hsi : shouldInvoke cfg s time
  · cases htr : cfg.trailing <;> cases ha : s.lastArgs <;>
      simp [hsi, htr, ha, invokeFunc]
  · right; simp [hsi, remainingWait]

/-- A schedule or timer-fire step at an instant no earlier than
lastInvokeTime moves lastInvokeTime forward, and never past that
instant. -/
lemma applyOp_invoke_mono (cfg : Config) (f : α → β) (time : Int)
    (op : DebOp α) (s : DState α β) (ht : s.lastInvokeTime ≤ time)
    (hop : isSchedOrFire op = true) :
    s.lastInvokeTime ≤ (applyOp cfg f time op s).1.lastInvokeTime ∧
      (applyOp cfg f time op s).1.lastInvokeTime ≤ time := by
  cases op with
  | schedule args =>
      simp only [applyOp]
      rcases debounced_lastInvokeTime cfg f time args s with h | h <;>
        rw [h] <;> omega
  | timerFire =>
      simp only [applyOp]
      cases htm : s.timer with
      | none => exact ⟨le_refl _, ht⟩
      | some τ =>
          rcases timerExpired_lastInvokeTime cfg f time s with h | h <;>
            rw [h] <;> omega
  | cancel => simp [isSchedOrFire] at hop
  | flush => simp [isSchedOrFire] at hop

/-- Chains of non-decreasing instants can be restarted at any earlier
instant. -/
lemma chain_le_of_le {a b : Int} {l : List Int} (hab : a ≤ b)
    (h : List.Chain (· ≤ ·) b l) : List.Chain (· ≤ ·) a l := by
  cases h with
  | nil => exact List.Chain.nil
  | cons hbc hc => exact List.Chain.cons (le_trans hab hbc) hc

/-- C4 counterexample: a schedule at t = 5 sets lastInvokeTime to 5
(the leading-edge bookkeeping), and a flush at t = 6 - one of the
operations the claim quantifies over - resets it to 0, a decrease. -/
theorem C4_counterexample :
    (runOps cfg300 (fun n : ℕ => n + 1) [(5, DebOp.schedule 1)]
        initialState).1.lastInvokeTime = 5
    ∧ (runOps cfg300 (fun n : ℕ => n + 1)
          [(5, DebOp.schedule 1), (6, DebOp.flush)]
          initialState).1.lastInvokeTime = 0 := by
  decide

/-- C4 amended: lastInvokeTime never decreases across any sequence of
schedule and timer-fire operations executed at non-decreasing instants
starting no earlier than the current lastInvokeTime; cancel and flush
(which calls cancel when a timer is armed) are excluded, as they reset
lastInvokeTime to its at-rest value 0. -/
theorem C4_lastInvokeTime_monotone (cfg : Config) (f : α → β) :
    ∀ (evs : List (Int × DebOp α)) (s : DState α β),
      List.Chain (· ≤ ·) s.lastInvokeTime (evs.map Prod.fst) →
      (evs.all fun e => isSchedOrFire e.2) = true →
      s.lastInvokeTime ≤ (runOps cfg f evs s).1.lastInvokeTime := by
  intro evs
  induction evs with
  | nil => intro s _ _; exact le_refl _
  | cons ev rest ih =>
      intro s hchain hops
      obtain ⟨t, op⟩ := ev
      rw [List.map_cons] at hchain
      cases hchain with
      | cons hst hrest =>
          rw [List.all_cons, Bool.and_eq_true] at hops
          have hstep := applyOp_invoke_mono cfg f t op s hst hops.1
          have htail := ih (applyOp cfg f t op s).1
            (chain_le_of_le hstep.2 hrest) hops.2
          calc s.lastInvokeTime
              ≤ (applyOp cfg f t op s).1.lastInvokeTime := hstep.1
            _ ≤ (runOps cfg f rest (applyOp cfg f t op s).1).1.lastInvokeTime :=
                htail
            _ = (runOps cfg f ((t, op) :: rest) s).1.lastInvokeTime := by
                simp [runOps]

/-- Witness for C4 amended on a concrete schedule-then-fire run. -/
theorem C4_lastInvokeTime_monotone_witness :
    List.Chain (· ≤ ·)
        (initialState (α := ℕ) (β := ℕ)).lastInvokeTime
        ([((5 : Int), DebOp.schedule (1 : ℕ)),
          (305, DebOp.timerFire)].map Prod.fst)
    ∧ ([((5 : Int), DebOp.schedule (1 : ℕ)),
          (305, DebOp.timerFire)].all fun e => isSchedOrFire e.2) = true
    ∧ (initialState (α := ℕ) (β := ℕ)).lastInvokeTime ≤
        (runOps cfg300 (fun n : ℕ => n + 1)
          [((5 : Int), DebOp.schedule (1 : ℕ)), (305, DebOp.timerFire)]
          initialState).1.lastInvokeTime :=
  ⟨List.Chain.cons (by decide) (List.Chain.cons (by decide) List.Chain.nil),
   by decide,
   C4_lastInvokeTime_monotone cfg300 (fun n : ℕ => n + 1)
     [((5 : Int), DebOp.schedule (1 : ℕ)), (305, DebOp.timerFire)]
     initialState
     (List.Chain.cons (by decide) (List.Chain.cons (by decide) List.Chain.nil))
     (by decide)⟩

/-- With no armed timeout there is nothing to fire before a call. -/
lemma fireDue_none (cfg : Config) (f : α → β) (n : Nat) (bound : Int)
    (s : DState α β) (h : s.timer = none) :
    fireDue cfg f n bound s = (s, []) := by
  cases n <;> simp [fireDue, h]

/-- With no armed timeout draining is over. -/
lemma drain_none (cfg : Config) (f : α → β) (n : Nat) (s : DState α β)
    (h : s.timer = none) : drain cfg f n s = (s, []) := by
  cases n <;> simp [drain, h]

/-- A timer firing exactly at lastCallTime + wait with pending args and
trailing enabled invokes once with those args and disarms. -/
lemma timerExpired_at_due (cfg : Config) (f : α → β) (t : Int) (a : α)
    (s : DState α β) (hc : s.lastCallTime = t) (ha : s.lastArgs = some a)
    (htr : cfg.trailing = true) :
    timerExpired cfg f (t + cfg.wait) s =
      ({ s with
          timer := none
          lastInvokeTime := t + cfg.wait
          result := some (f a) }, [(t + cfg.wait, a)]) := by
  unfold timerExpired
  rw [if_pos (shouldInvoke_at_due cfg s t hc)]
  unfold trailingEdge
  simp [htr, ha, invokeFunc]

/-- C10: with leading and trailing both enabled, a single call at
instant t followed only by the timer expiring invokes the underlying
function twice with the same argument tuple - at t (leading edge) and
again at t + wait (trailing edge) - because the leading invocation does
not clear the stored pending arguments. -/
theorem C10_leading_trailing_double_invoke (t w : Int) (a : α) (f : α → β) :
    (simulate { wait := w, leading := true, trailing := true, maxWait := none }
        f [(t, a)]).2 = [(t, a), (t + w, a)] := by
  have h1 : runCalls
        { wait := w, leading := true, trailing := true, maxWait := none }
        f [(t, a)] initialState =
      ((⟨some (t + w), t, t, some a, some (f a)⟩ : DState α β), [(t, a)]) := by
    simp only [runCalls]
    rw [fireDue_none _ f 2 t initialState rfl]
    simp [debounced, shouldInvoke, initialState, leadingEdge, invokeFunc]
  have h2 : timerExpired
        { wait := w, leading := true, trailing := true, maxWait := none }
        f (t + w) (⟨some (t + w), t, t, some a, some (f a)⟩ : DState α β) =
      ((⟨none, t, t + w, some a, some (f a)⟩ : DState α β), [(t + w, a)]) :=
    timerExpired_at_due _ f t a _ rfl rfl rfl
  have h3 : drain
        { wait := w, leading := true, trailing := true, maxWait := none }
        f 3 (⟨some (t + w), t, t, some a, some (f a)⟩ : DState α β) =
      ((⟨none, t, t + w, some a, some (f a)⟩ : DState α β), [(t + w, a)]) := by
    simp only [drain, h2]
    simp
  simp only [simulate, List.length_cons, List.length_nil, h1]
  rw [show (0 + 1 + 2 : Nat) = 3 from rfl, h3]
  simp

/-- shouldInvoke is false when there has been a call (non-sentinel),
the quiet window has not elapsed, and no maxWait is configured. -/
lemma shouldInvoke_false_noMax (cfg : Config) (hmw : cfg.maxWait = none)
    (s : DState α β) (time : Int) (h0 : s.lastCallTime ≠ 0)
    (hw : time - s.lastCallTime < cfg.wait) :
    shouldInvoke cfg s time = false := by
  simp only [shouldInvoke]
  rw [if_neg h0, if_neg (by omega), hmw]

/-- A not-yet-due timer fire without maxWait re-arms the timer for the
quiet-window deadline lastCallTime + wait and performs no invocation. -/
lemma timerExpired_rearm_noMax (cfg : Config) (hmw : cfg.maxWait = none)
    (f : α → β) {s : DState α β} {time : Int} (h0 : s.lastCallTime ≠ 0)
    (hw : time - s.lastCallTime < cfg.wait) :
    timerExpired cfg f time s =
      ({ s with timer := some (s.lastCallTime + cfg.wait) }, []) := by
  unfold timerExpired
  rw [if_neg (by simp [shouldInvoke_false_noMax cfg hmw s time h0 hw])]
  simp only [remainingWait, hmw]
  rw [show time + (cfg.wait - (time - s.lastCallTime)) =
      s.lastCallTime + cfg.wait from by omega]

/-- Specialisation of the re-arming fire to cfg300. -/
lemma timerExpired_rearm300 (f : α → β) {s : DState α β} {t time : Int}
    (hc : s.lastCallTime = t) (h0 : t ≠ 0) (hw : time - t < 300) :
    timerExpired cfg300 f time s = ({ s with timer := some (t + 300) }, []) := by
  rw [← hc]
  exact timerExpired_rearm_noMax cfg300 rfl f (s := s)
    (by rw [hc]; exact h0) (by rw [hc]; exact hw)

/-- Firing the due timers strictly before the next call instant keeps
the cfg300 burst invariant and performs no invocation: either the timer
is not yet due (nothing fires), or one overdue fire merely re-arms for
lastCallTime + 300. -/
lemma fireDue_inv (f : α → β) {t : Int} {a : α} {s : DState α β} (tn : Int)
    (hInv : Inv300 t a s) (h1 : t ≤ tn) (h2 : tn - t < 300) :
    (fireDue cfg300 f 2 tn s).2 = [] ∧
      ∃ τ', (fireDue cfg300 f 2 tn s).1 = { s with timer := some τ' } ∧
        tn ≤ τ' ∧ τ' ≤ t + 300 ∧ 300 ≤ τ' := by
  obtain ⟨ha, hc, h0, τ, htm, hτ1, hτ2, hτ3⟩ := hInv
  by_cases hlt : τ < tn
  · have ht0 : t ≠ 0 := by omega
    have hcomp : fireDue cfg300 f 2 tn s =
        ({ s with timer := some (t + 300) }, []) := by
      simp only [fireDue, htm]
      rw [if_pos hlt, timerExpired_rearm300 f hc ht0 (by omega)]
      simp only [fireDue]
      rw [if_neg (by omega : ¬(t + 300 < tn))]
      simp
    rw [hcomp]
    exact ⟨rfl, t + 300, rfl, by omega, by omega, by omega⟩
  · have hs_eq : ({ s with timer := some τ } : DState α β) = s := by
      cases s
      subst htm
      rfl
    have hcomp : fireDue cfg300 f 2 tn s = (s, []) := by
      simp only [fireDue, htm]
      rw [if_neg hlt]
    rw [hcomp]
    exact ⟨rfl, τ, hs_eq.symm, by omega, hτ2, hτ3⟩

/-- A call that arrives while the timer is armed and no maxWait is
configured only records its argument and instant; it neither invokes
nor touches the timer (both shouldInvoke outcomes funnel into the same
no-op branches). -/
lemma debounced_armed_noMaxWait (cfg : Config) (hmw : cfg.maxWait = none)
    (f : α → β) (time : Int) (args : α) {s : DState α β} {τ : Int}
    (htm : s.timer = some τ) :
    debounced cfg f time args s =
      { st := { s with lastArgs := some args, lastCallTime := time }
        invs := []
        ret := s.result } := by
  unfold debounced
  by_cases hsi : shouldInvoke cfg s time <;> simp [hsi, htm, hmw]

/-- Playing the remaining calls of a cfg300 burst performs no
invocation and re-establishes the invariant at the last call. -/
lemma runCalls_inv (f : α → β) :
    ∀ (rest : List (Int × α)) (t : Int) (a : α) (s : DState α β),
      Inv300 t a s →
      List.Chain (fun p q : Int × α => p.1 ≤ q.1 ∧ q.1 - p.1 < 300)
        (t, a) rest →
      (runCalls cfg300 f rest s).2 = [] ∧
        Inv300 (lastCall (t, a) rest).1 (lastCall (t, a) rest).2
          (runCalls cfg300 f rest s).1 := by
  intro rest
  induction rest with
  | nil =>
      intro t a s hInv _
      exact ⟨rfl, by simpa [lastCall, runCalls] using hInv⟩
  | cons hd rest' ih =>
      intro t a s hInv hchain
      obtain ⟨tn, an⟩ := hd
      cases hchain with
      | cons hrel htl =>
          have hle : t ≤ tn := hrel.1
          have hgap : tn - t < 300 := hrel.2
          have h0t : 0 ≤ t := hInv.2.2.1
          obtain ⟨hf2, τ', hf1, hτa, hτb, hτc⟩ := fireDue_inv f tn hInv hle hgap
          have htm2 : (fireDue cfg300 f 2 tn s).1.timer = some τ' := by
            rw [hf1]
          have hdb := debounced_armed_noMaxWait cfg300 rfl f tn an htm2
          have hst : (debounced cfg300 f tn an
              (fireDue cfg300 f 2 tn s).1).st =
              { s with timer := some τ', lastArgs := some an
                       lastCallTime := tn } := by
            rw [hdb, hf1]
          have hInv2 : Inv300 tn an
              (debounced cfg300 f tn an (fireDue cfg300 f 2 tn s).1).st := by
            rw [hst]
            exact ⟨rfl, rfl, by omega, τ', rfl, hτa, by omega, hτc⟩
          obtain ⟨hr2, hrInv⟩ := ih tn an _ hInv2 htl
          refine ⟨?_, ?_⟩
          · simp only [runCalls]
            rw [hf2, hr2, hdb]
            rfl
          · simp only [runCalls, lastCall]
            exact hrInv

/-- One unfolding of drain when a timer is armed. -/
lemma drain_step (cfg : Config) (f : α → β) (n : Nat) {s : DState α β}
    {τ : Int} (htm : s.timer = some τ) :
    drain cfg f (n + 1) s =
      ((drain cfg f n (timerExpired cfg f τ s).1).1,
        (timerExpired cfg f τ s).2 ++
          (drain cfg f n (timerExpired cfg f τ s).1).2) := by
  simp [drain, htm]

/-- Draining a state satisfying the cfg300 burst invariant yields
exactly one invocation, at lastCallTime + 300 with the pending
argument, and ends disarmed: either the timer is due exactly then, or
one re-arming fire first moves it there. -/
lemma drain_inv (f : α → β) (n : Nat) {t : Int} {a : α} {s : DState α β}
    (hInv : Inv300 t a s) :
    (drain cfg300 f (n + 2) s).2 = [(t + 300, a)] ∧
      (drain cfg300 f (n + 2) s).1.timer = none := by
  obtain ⟨ha, hc, h0, τ, htm, hτ1, hτ2, hτ3⟩ := hInv
  have hdue : timerExpired cfg300 f (t + 300) s =
      ({ s with
          timer := none
          lastInvokeTime := t + 300
          result := some (f a) }, [(t + 300, a)]) :=
    timerExpired_at_due cfg300 f t a s hc ha rfl
  by_cases hE : τ = t + 300
  · subst hE
    rw [show n + 2 = n + 1 + 1 from rfl, drain_step cfg300 f (n + 1) htm,
        hdue]
    rw [drain_none cfg300 f (n + 1) _ rfl]
    exact ⟨rfl, rfl⟩
  · have ht0 : t ≠ 0 := by omega
    have hre : timerExpired cfg300 f τ s =
        ({ s with timer := some (t + 300) }, []) :=
      timerExpired_rearm300 f hc ht0 (by omega)
    have hdue2 : timerExpired cfg300 f (t + 300)
        ({ s with timer := some (t + 300) } : DState α β) =
        ({ s with
            timer := none
            lastInvokeTime := t + 300
            result := some (f a) }, [(t + 300, a)]) :=
      timerExpired_at_due cfg300 f t a _ hc ha rfl
    rw [show n + 2 = n + 1 + 1 from rfl, drain_step cfg300 f (n + 1) htm,
        hre]
    rw [drain_step cfg300 f n (s := { s with timer := some (t + 300) })
        (τ := t + 300) rfl, hdue2]
    rw [drain_none cfg300 f n _ rfl]
    exact ⟨rfl, rfl⟩

/-- C6: against cfg300 ({wait: 300}, defaults), any burst of N >= 1
calls starting at a non-negative instant whose consecutive calls are
non-decreasing in time with gaps strictly below 300 produces exactly
one invocation, carried out with the last call's argument at the
instant (last call + 300). -/
theorem C6_debounce_collapse (f : α → β) (t1 : Int) (a1 : α)
    (rest : List (Int × α)) (h0 : 0 ≤ t1)
    (hchain : List.Chain (fun p q : Int × α => p.1 ≤ q.1 ∧ q.1 - p.1 < 300)
      (t1, a1) rest) :
    (simulate cfg300 f ((t1, a1) :: rest)).2 =
      [((lastCall (t1, a1) rest).1 + 300, (lastCall (t1, a1) rest).2)] := by
  have hfire0 : fireDue cfg300 f 2 t1 (initialState (α := α) (β := β)) =
      (initialState, []) :=
    fireDue_none cfg300 f 2 t1 initialState rfl
  have hfirst : debounced cfg300 f t1 a1 (initialState (α := α) (β := β)) =
      { st := (⟨some (t1 + 300), t1, t1, some a1, none⟩ : DState α β)
        invs := []
        ret := none } := by
    simp [debounced, shouldInvoke, initialState, leadingEdge, cfg300]
  obtain ⟨hr2, hrInv⟩ := runCalls_inv f rest t1 a1
    (⟨some (t1 + 300), t1, t1, some a1, none⟩ : DState α β)
    ⟨rfl, rfl, h0, t1 + 300, rfl, by omega, by omega, by omega⟩ hchain
  obtain ⟨hd2, _⟩ := drain_inv f (rest.length + 1) hrInv
  simp only [simulate, runCalls, List.length_cons, hfire0, hfirst, hr2, hd2]
  simp

/-- Witness for C6 on the spec's own example burst: three calls at
t = 0; exactly one invocation, at t = 300, with the third argument. -/
theorem C6_debounce_collapse_witness :
    (0 : Int) ≤ 0
    ∧ List.Chain (fun p q : Int × ℕ => p.1 ≤ q.1 ∧ q.1 - p.1 < 300)
        ((0 : Int), (1 : ℕ)) [(0, 2), (0, 3)]
    ∧ (simulate cfg300 (fun n : ℕ => n + 1) [(0, 1), (0, 2), (0, 3)]).2 =
        [((lastCall ((0 : Int), (1 : ℕ)) [(0, 2), (0, 3)]).1 + 300,
          (lastCall ((0 : Int), (1 : ℕ)) [(0, 2), (0, 3)]).2)] :=
  ⟨by decide,
   List.Chain.cons (by decide) (List.Chain.cons (by decide) List.Chain.nil),
   C6_debounce_collapse (fun n : ℕ => n + 1) 0 1 [(0, 2), (0, 3)] (by decide)
     (List.Chain.cons (by decide) (List.Chain.cons (by decide)
       List.Chain.nil))⟩

end UseDebounce
